import Mathlib

/-!
Verification of the delivery-bot CI/CD control plane.

Shallow embedding of:
- `src/api/models.py` (Step construction/validation, Pipeline, RunStatus, Run),
- `src/api/storage.py` (InMemoryDB CRUD),
- `src/api/pipeline_runner.py` (PipelineExecutor.validate_pipeline,
  validate_run, simulate_step, run_pipeline),
- `src/api/main.py` (the PUT /pipelines/{id} handler),
- `src/api/gh.py` (GitHubClient._make_request retry loop and
  trigger_github_workflow).

Modelling conventions:
- Python `datetime.utcnow()` is a natural-number clock carried in the store
  state; every read returns the current value and strictly advances it.
- `StepType` is a `str` enum in the source; the step's `type` field is
  embedded as the enum's `String` value so that the simulator's defensive
  "unknown step type" branch stays a live branch, exactly as in the source.
- Mutations of the shared `Run` object are made explicit: the executors
  return the full sequence of `Run` snapshots (one per field mutation), the
  final run value, the final store, and the propagated exception, if any.
- Python falsiness of optional strings (`not step.command`,
  `step.dockerfile or "Dockerfile"`) is modelled by `falsy` / `orDefault`:
  both `None` and `""` count as missing.
-/

namespace DeliveryBot

/-- Run lifecycle states, from `RunStatus` in `src/api/models.py`. -/
inductive RunStatus where
  | pending
  | running
  | succeeded
  | failed
  | cancelled
deriving DecidableEq, Repr

/-- One pipeline step, from `Step` in `src/api/models.py`.  The `type` field
holds the `StepType` enum value string (`"run"`, `"build"` or `"deploy"` for
enum members). -/
structure Step where
  name : String
  type : String
  command : Option String := none
  dockerfile : Option String := none
  ecr_repo : Option String := none
  manifest : Option String := none
  timeout_seconds : Int := 300
  continue_on_error : Bool := false
deriving DecidableEq, Repr

/-- A pipeline, from `Pipeline` in `src/api/models.py`.  Timestamps are
natural-number clock readings. -/
structure Pipeline where
  id : String
  name : String
  repo_url : String
  branch : String := "main"
  steps : List Step := []
  created_at : Nat
  updated_at : Nat
deriving DecidableEq, Repr

/-- A run, from `Run` in `src/api/models.py`. -/
structure Run where
  id : String
  pipeline_id : String
  status : RunStatus := RunStatus.pending
  started_at : Option Nat := none
  finished_at : Option Nat := none
  current_step : Option Nat := none
  logs : List String := []
deriving DecidableEq, Repr

/-- Python string falsiness for optional string fields: `None` and `""` are
both falsy (`not self.command` in the pydantic validator). -/
def falsy (o : Option String) : Bool :=
  o.getD "" = ""

/-- `x or default` on an optional string field, as used by the simulator's
fallbacks (`step.dockerfile or "Dockerfile"`). -/
def orDefault (o : Option String) (d : String) : String :=
  match o with
  | none => d
  | some s => if s = "" then d else s

/-- Membership in the closed `StepType` enum of `src/api/models.py`. -/
def stepTypeKnown (t : String) : Bool :=
  t = "run" || t = "build" || t = "deploy"

/-- Constructing a `Step` through the pydantic model: enum membership and the
`timeout_seconds` bounds are field-level validation, then the
`_validate_by_type` model validator enforces the type-specific required
fields.  Returns the first validation error, mirroring a raised
`ValidationError`. -/
def mkStep (name ty : String) (command dockerfile ecr_repo manifest : Option String)
    (timeout_seconds : Int := 300) (continue_on_error : Bool := false) :
    Except String Step :=
  if !stepTypeKnown ty then
    Except.error "Input should be a valid StepType member"
  else if timeout_seconds < 1 then
    Except.error "Input should be greater than or equal to 1"
  else if timeout_seconds > 3600 then
    Except.error "Input should be less than or equal to 3600"
  else if ty = "run" && falsy command then
    Except.error "`command` is required for step type run"
  else if ty = "build" && (falsy dockerfile || falsy ecr_repo) then
    Except.error "`dockerfile` and `ecr_repo` are required for step type build"
  else if ty = "deploy" && falsy manifest then
    Except.error "`manifest` is required for step type deploy"
  else
    Except.ok
      { name := name, type := ty, command := command, dockerfile := dockerfile,
        ecr_repo := ecr_repo, manifest := manifest,
        timeout_seconds := timeout_seconds, continue_on_error := continue_on_error }

/-- The in-memory store of `src/api/storage.py`, with the wall clock read by
`datetime.utcnow()` carried alongside the two collections. -/
structure InMemoryDB where
  pipelines : String → Option Pipeline := fun _ => none
  runs : String → Option Run := fun _ => none
  time : Nat := 0

/-- `datetime.utcnow()`: returns the current clock value and strictly
advances the clock. -/
def utcnow (db : InMemoryDB) : Nat × InMemoryDB :=
  (db.time, { db with time := db.time + 1 })

namespace InMemoryDB

/-- `InMemoryDB.create_pipeline`: stores under `pipeline.id`, returns the
same pipeline. -/
def create_pipeline (db : InMemoryDB) (p : Pipeline) : InMemoryDB × Pipeline :=
  ({ db with pipelines := fun k => if k = p.id then some p else db.pipelines k }, p)

/-- `InMemoryDB.get_pipeline`. -/
def get_pipeline (db : InMemoryDB) (pid : String) : Option Pipeline :=
  db.pipelines pid

/-- `InMemoryDB.update_pipeline`: no-op returning `None` on a missing id;
otherwise overwrites `updated_at` with the current wall-clock time and stores
the new value. -/
def update_pipeline (db : InMemoryDB) (pid : String) (updated : Pipeline) :
    InMemoryDB × Option Pipeline :=
  match db.pipelines pid with
  | none => (db, none)
  | some _ =>
    let (now, db2) := utcnow db
    let u := { updated with updated_at := now }
    ({ db2 with pipelines := fun k => if k = pid then some u else db2.pipelines k },
      some u)

/-- `InMemoryDB.delete_pipeline`: `pop(id, None) is not None`. -/
def delete_pipeline (db : InMemoryDB) (pid : String) : InMemoryDB × Bool :=
  match db.pipelines pid with
  | none => (db, false)
  | some _ =>
    ({ db with pipelines := fun k => if k = pid then none else db.pipelines k }, true)

/-- `InMemoryDB.create_run`. -/
def create_run (db : InMemoryDB) (r : Run) : InMemoryDB × Run :=
  ({ db with runs := fun k => if k = r.id then some r else db.runs k }, r)

/-- `InMemoryDB.get_run`. -/
def get_run (db : InMemoryDB) (rid : String) : Option Run :=
  db.runs rid

/-- `InMemoryDB.update_run`: no-op returning `None` on a missing id; no
timestamp handling. -/
def update_run (db : InMemoryDB) (rid : String) (r : Run) : InMemoryDB × Option Run :=
  match db.runs rid with
  | none => (db, none)
  | some _ =>
    ({ db with runs := fun k => if k = rid then some r else db.runs k }, some r)

end InMemoryDB

/-- Append one log line to a run's log (the `run.logs.append(msg)` part of
the simulator's local `log`). -/
def addLog (r : Run) (m : String) : Run :=
  { r with logs := r.logs ++ [m] }

namespace PipelineExecutor

/-- The per-step loop inside `PipelineExecutor.validate_pipeline`: first
error raised, if any. -/
def validate_steps : List Step → Nat → Option String
  | [], _ => none
  | s :: rest, i =>
    if s.name = "" then some ("Step " ++ toString i ++ " must have a name")
    else if s.type = "" then some ("Step " ++ toString i ++ " must have a type")
    else if s.type = "run" && falsy s.command then
      some ("Run step " ++ toString i ++ " must have a command")
    else validate_steps rest (i + 1)

/-- `PipelineExecutor.validate_pipeline`: the `ValueError` message raised, or
`none` when validation passes.  The build/deploy branches only log warnings
and raise nothing. -/
def validate_pipeline (p : Pipeline) : Option String :=
  if p.steps = [] then some "Pipeline must have at least one step"
  else if p.id = "" then some "Pipeline must have an ID"
  else validate_steps p.steps 0

/-- `PipelineExecutor.validate_run`. -/
def validate_run (r : Run) : Option String :=
  if r.id = "" then some "Run must have an ID"
  else if r.pipeline_id = "" then some "Run must have a pipeline ID"
  else none

/-- The store effect of the simulator's local `log`: after appending, the
run is written back through `storage.update_run(run.id, run)`. -/
def logDB (db : InMemoryDB) (r : Run) : InMemoryDB :=
  (InMemoryDB.update_run db r.id r).1

/-- The step start log line of `simulate_step`. -/
def startLine (idx : Nat) (s : Step) : String :=
  "[step " ++ toString (idx + 1) ++ "] Starting \x27" ++ s.name ++
    "\x27 of type \x27" ++ s.type ++ "\x27"

/-- Python `repr` of an optional string, for the `{step.command!r}`
interpolation. -/
def pyRepr (o : Option String) : String :=
  match o with
  | none => "None"
  | some s => "\x27" ++ s ++ "\x27"

/-- The step completion log line of `simulate_step`. -/
def doneLine (s : Step) : String :=
  "Step \x27" ++ s.name ++ "\x27 completed successfully"

/-- The simulator's except-branch log line. -/
def failLine (s : Step) (e : String) : String :=
  "Step \x27" ++ s.name ++ "\x27 failed: " ++ e

/-- Result of one `simulate_step` call: final run value, final store, the
sequence of run snapshots (one per mutation of the shared run object, in
order), and the propagated exception message, if any. -/
structure StepSim where
  run : Run
  db : InMemoryDB
  trace : List Run
  err : Option String

/-- `PipelineExecutor.simulate_step`: sets `current_step`, emits the start
line, dispatches on the step type (the `asyncio.sleep` calls do not change
the run), emits the completion line on success; the unknown-type branch logs
the marker line, raises `ValueError`, which the except branch logs and
re-raises. -/
def simulate_step (db : InMemoryDB) (r : Run) (s : Step) (idx : Nat) : StepSim :=
  let r1 : Run := { r with current_step := some idx }
  let r2 : Run := addLog r1 (startLine idx s)
  let db2 : InMemoryDB := logDB db r2
  if s.type = "run" then
    let r3 : Run := addLog r2 ("Running shell command: " ++ pyRepr s.command)
    let db3 : InMemoryDB := logDB db2 r3
    let r4 : Run := addLog r3 "Command finished with exit code 0"
    let db4 : InMemoryDB := logDB db3 r4
    let r5 : Run := addLog r4 (doneLine s)
    let db5 : InMemoryDB := logDB db4 r5
    ⟨r5, db5, [r1, r2, r3, r4, r5], none⟩
  else if s.type = "build" then
    let df := orDefault s.dockerfile "Dockerfile"
    let repo := orDefault s.ecr_repo "ecr://example"
    let r3 : Run := addLog r2 ("Building Docker image from " ++ df ++ " and pushing to " ++ repo)
    let db3 : InMemoryDB := logDB db2 r3
    let r4 : Run := addLog r3 "Image built and pushed successfully"
    let db4 : InMemoryDB := logDB db3 r4
    let r5 : Run := addLog r4 (doneLine s)
    let db5 : InMemoryDB := logDB db4 r5
    ⟨r5, db5, [r1, r2, r3, r4, r5], none⟩
  else if s.type = "deploy" then
    let mf := orDefault s.manifest "k8s/deploy.yaml"
    let r3 : Run := addLog r2 ("Applying manifest " ++ mf ++ " to cluster")
    let db3 : InMemoryDB := logDB db2 r3
    let r4 : Run := addLog r3 "Deployment applied"
    let db4 : InMemoryDB := logDB db3 r4
    let r5 : Run := addLog r4 (doneLine s)
    let db5 : InMemoryDB := logDB db4 r5
    ⟨r5, db5, [r1, r2, r3, r4, r5], none⟩
  else
    let r3 : Run := addLog r2 "Unknown step type encountered"
    let db3 : InMemoryDB := logDB db2 r3
    let e := "Unknown step type: " ++ s.type
    let r4 : Run := addLog r3 (failLine s e)
    let db4 : InMemoryDB := logDB db3 r4
    ⟨r4, db4, [r1, r2, r3, r4], some e⟩

/-- The log lines that one `simulate_step` call appends, branch by branch
(read off the appends of `simulate_step`). -/
def stepLogs (s : Step) (idx : Nat) : List String :=
  if s.type = "run" then
    [startLine idx s, "Running shell command: " ++ pyRepr s.command,
     "Command finished with exit code 0", doneLine s]
  else if s.type = "build" then
    [startLine idx s,
     "Building Docker image from " ++ orDefault s.dockerfile "Dockerfile" ++
       " and pushing to " ++ orDefault s.ecr_repo "ecr://example",
     "Image built and pushed successfully", doneLine s]
  else if s.type = "deploy" then
    [startLine idx s,
     "Applying manifest " ++ orDefault s.manifest "k8s/deploy.yaml" ++ " to cluster",
     "Deployment applied", doneLine s]
  else
    [startLine idx s, "Unknown step type encountered",
     failLine s ("Unknown step type: " ++ s.type)]

/-- The log lines the step loop appends: steps in order, stopping after the
first step whose type falls outside the closed enum. -/
def runLogs : List Step → Nat → List String
  | [], _ => []
  | s :: rest, idx =>
    stepLogs s idx ++ (if stepTypeKnown s.type then runLogs rest (idx + 1) else [])

/-- The `for idx, step in enumerate(pipeline.steps)` loop of `run_pipeline`:
runs steps in order from index `idx`, stopping at the first exception. -/
def run_steps (db : InMemoryDB) (r : Run) : List Step → Nat → StepSim
  | [], _ => ⟨r, db, [], none⟩
  | s :: rest, idx =>
    let out := simulate_step db r s idx
    match out.err with
    | some e => ⟨out.run, out.db, out.trace, some e⟩
    | none =>
      let out2 := run_steps out.db out.run rest (idx + 1)
      ⟨out2.run, out2.db, out.trace ++ out2.trace, out2.err⟩

/-- Result of `run_pipeline`: final run, final store, run snapshot trace, and
the propagated precondition `ValueError` message, if any. -/
structure ExecResult where
  run : Run
  db : InMemoryDB
  trace : List Run
  err : Option String

/-- `PipelineExecutor.run_pipeline`: validate pipeline then run (errors
propagate with nothing mutated), transition to `running`, stamp
`started_at`, persist, run the steps; on success set `succeeded`, on a step
exception append the `"ERROR: ..."` line and set `failed`; in all executed
cases stamp `finished_at` and persist as the last action (the `finally`
block). -/
def run_pipeline (db : InMemoryDB) (p : Pipeline) (r : Run) : ExecResult :=
  match validate_pipeline p with
  | some e => ⟨r, db, [], some e⟩
  | none =>
    match validate_run r with
    | some e => ⟨r, db, [], some e⟩
    | none =>
      let r1 : Run := { r with status := RunStatus.running }
      let t0 : Nat := (utcnow db).1
      let dbA : InMemoryDB := (utcnow db).2
      let r2 : Run := { r1 with started_at := some t0 }
      let dbB : InMemoryDB := (InMemoryDB.update_run dbA r2.id r2).1
      let sim := run_steps dbB r2 p.steps 0
      match sim.err with
      | none =>
        let r3 : Run := { sim.run with status := RunStatus.succeeded }
        let t1 : Nat := (utcnow sim.db).1
        let dbC : InMemoryDB := (utcnow sim.db).2
        let r4 : Run := { r3 with finished_at := some t1 }
        let dbD : InMemoryDB := (InMemoryDB.update_run dbC r4.id r4).1
        ⟨r4, dbD, [r1, r2] ++ sim.trace ++ [r3, r4], none⟩
      | some e =>
        let r3 : Run := addLog sim.run ("ERROR: " ++ e)
        let r4 : Run := { r3 with status := RunStatus.failed }
        let t1 : Nat := (utcnow sim.db).1
        let dbC : InMemoryDB := (utcnow sim.db).2
        let r5 : Run := { r4 with finished_at := some t1 }
        let dbD : InMemoryDB := (InMemoryDB.update_run dbC r5.id r5).1
        ⟨r5, dbD, [r1, r2] ++ sim.trace ++ [r3, r4, r5], none⟩

end PipelineExecutor

/-- The request body model shared by POST and PUT `/pipelines`. -/
structure CreatePipelineRequest where
  name : String
  repo_url : String
  branch : String := "main"
  steps : List Step

namespace Api

/-- The PUT `/pipelines/{id}` handler of `src/api/main.py`: 404 on a missing
pipeline; otherwise rebuilds the pipeline preserving `id` and `created_at`
(the `Pipeline(...)` construction reads the clock for the `updated_at`
default) and saves through `InMemoryDB.update_pipeline`; 500 if that save
reports a missing id. -/
def update_pipeline (db : InMemoryDB) (pid : String) (req : CreatePipelineRequest) :
    InMemoryDB × Except Nat Pipeline :=
  match db.pipelines pid with
  | none => (db, Except.error 404)
  | some current =>
    let now0 : Nat := (utcnow db).1
    let db2 : InMemoryDB := (utcnow db).2
    let updated : Pipeline :=
      { id := pid, name := req.name, repo_url := req.repo_url, branch := req.branch,
        steps := req.steps, created_at := current.created_at, updated_at := now0 }
    let res := InMemoryDB.update_pipeline db2 pid updated
    match res.2 with
    | none => (res.1, Except.error 500)
    | some saved => (res.1, Except.ok saved)

end Api

namespace GitHub

/-- What one HTTP attempt of the underlying client produces: a raised
`requests.RequestException` (network failure) or an HTTP response. -/
inductive HResp where
  | net (msg : String)
  | resp (status : Nat) (text : String)
deriving DecidableEq, Repr

/-- The exception taxonomy of `src/api/gh.py`: `GitHubAPIError` and its
subclasses (`rateLimit`, `notFound`, `permission`), plus the raw
`requests.RequestException`. -/
inductive GHErr where
  | api (msg : String) (status : Option Nat)
  | rateLimit (msg : String) (status : Nat)
  | notFound (msg : String) (status : Nat)
  | permission (msg : String) (status : Nat)
  | network (msg : String)
deriving DecidableEq, Repr

/-- `"rate limit" in response.text.lower()`. -/
def mentionsRateLimit (t : String) : Bool :=
  (t.toLower.splitOn "rate limit").length != 1

/-- The response classification inside `_retry_request`: raise on rate
limit / 401 / 403 / 404 / 5xx, return the response otherwise. -/
def classify (h : HResp) : Except GHErr (Nat × String) :=
  match h with
  | HResp.net m => Except.error (GHErr.network m)
  | HResp.resp s t =>
    if s = 403 && mentionsRateLimit t then
      Except.error (GHErr.rateLimit "Rate limit exceeded" s)
    else if s = 401 then
      Except.error (GHErr.api "Authentication failed" (some s))
    else if s = 403 then
      Except.error (GHErr.permission "Insufficient permissions" s)
    else if s = 404 then
      Except.error (GHErr.notFound "Resource not found" s)
    else if s ≥ 500 then
      Except.error (GHErr.api ("GitHub server error: " ++ toString s) (some s))
    else
      Except.ok (s, t)

/-- The tenacity retry predicate:
`retry_if_exception_type((requests.RequestException, GitHubRateLimitError))`. -/
def retryable : GHErr → Bool
  | GHErr.network _ => true
  | GHErr.rateLimit _ _ => true
  | _ => false

/-- Outcome of the tenacity-wrapped `_retry_request`. -/
inductive RetryOutcome where
  | success (v : Nat × String)
  | fail (e : GHErr)
  | exhausted (e : GHErr)
deriving DecidableEq, Repr

/-- The tenacity loop with `stop_after_attempt(3)`: attempt `i` consumes
`o i`; a retryable exception is retried while attempts remain and otherwise
exhausts the budget (tenacity then raises `RetryError`); a non-retryable
exception propagates immediately. -/
def attemptLoop (o : Nat → HResp) (i : Nat) : Nat → RetryOutcome
  | 0 => RetryOutcome.exhausted (GHErr.network "")
  | fuel + 1 =>
    match classify (o i) with
    | Except.ok v => RetryOutcome.success v
    | Except.error e =>
      if retryable e then
        if fuel = 0 then RetryOutcome.exhausted e
        else attemptLoop o (i + 1) fuel
      else RetryOutcome.fail e

/-- `GitHubClient._make_request`, with the oracle `o` giving the outcome of
each successive HTTP attempt.  On exhaustion tenacity's `RetryError` is not
in the re-raise list and is wrapped into a status-less `GitHubAPIError` by
the outer handler. -/
def make_request (o : Nat → HResp) : Except GHErr (Nat × String) :=
  match attemptLoop o 0 3 with
  | RetryOutcome.success v => Except.ok v
  | RetryOutcome.fail e => Except.error e
  | RetryOutcome.exhausted _ =>
    Except.error (GHErr.api "Unexpected error: RetryError" none)

/-- `e.status_code` of a raised exception (`None` for a bare network
exception). -/
def statusOf : GHErr → Option Nat
  | GHErr.api _ st => st
  | GHErr.rateLimit _ c => some c
  | GHErr.notFound _ c => some c
  | GHErr.permission _ c => some c
  | GHErr.network _ => none

/-- The isinstance chain of `trigger_workflow`'s error handler, reached when
`e.status_code` is falsy.  A network exception is not a `GitHubAPIError` at
all and is turned into 500 by `trigger_github_workflow`'s outer handler. -/
def errFallbackCode : GHErr → Nat
  | GHErr.notFound _ _ => 404
  | GHErr.permission _ _ => 403
  | GHErr.rateLimit _ _ => 429
  | _ => 500

/-- `trigger_github_workflow` (status-code mode): returns
`response.status_code` on a completed dispatch call; for a raised
`GitHubAPIError` returns its status code when truthy, else falls through the
isinstance chain; any other exception yields 500. -/
def trigger_github_workflow (o : Nat → HResp) : Nat :=
  match make_request o with
  | Except.ok (s, _) => s
  | Except.error e =>
    match statusOf e with
    | some c => if c ≠ 0 then c else errFallbackCode e
    | none => errFallbackCode e

end GitHub

/-! Relations used to state the temporal claims, and concrete fixtures for
witnesses and counterexamples. -/

/-- The run-status transitions permitted by the
`pending -> running -> (succeeded | failed)` state machine: stuttering, the
start transition, and the two terminal transitions.  Terminal states only
stutter, so they are sinks. -/
def okTransition (a b : RunStatus) : Bool :=
  a == b || (a == RunStatus.pending && b == RunStatus.running) ||
    (a == RunStatus.running && (b == RunStatus.succeeded || b == RunStatus.failed))

/-- Order on `current_step` observations: unset may become set, a set index
never decreases. -/
def csLE : Option Nat → Option Nat → Prop
  | none, _ => True
  | some _, none => False
  | some i, some j => i ≤ j

/-- One observable mutation of the shared run object only grows the log
(appends a suffix) and never decreases `current_step`. -/
def progress (a b : Run) : Prop :=
  (∃ t, b.logs = a.logs ++ t) ∧ csLE a.current_step b.current_step

/-- A log line of the form `"ERROR: <detail>"`. -/
def isErrLine (l : String) : Prop :=
  ∃ d, l = "ERROR: " ++ d

/-- A valid `run` step. -/
def stepLint : Step :=
  { name := "lint", type := "run", command := some "make lint" }

/-- A step whose type string is outside the closed `StepType` enum: the only
failure the embedded executor can signal. -/
def stepBad : Step :=
  { name := "mystery", type := "quantum" }

/-- A valid `deploy` step. -/
def stepC : Step :=
  { name := "ship", type := "deploy", manifest := some "k8s/deploy.yaml" }

/-- A valid `build` step. -/
def stepB : Step :=
  { name := "image", type := "build", dockerfile := some "Dockerfile",
    ecr_repo := some "ecr://repo" }

/-- A three-step pipeline `[A, B, C]` whose middle step fails. -/
def pABC : Pipeline :=
  { id := "p1", name := "demo", repo_url := "https://github.com/o/r",
    steps := [stepLint, stepBad, stepC], created_at := 0, updated_at := 0 }

/-- An all-valid pipeline. -/
def pGood : Pipeline :=
  { id := "p1", name := "demo", repo_url := "https://github.com/o/r",
    steps := [stepLint, stepB, stepC], created_at := 0, updated_at := 0 }

/-- A step with an empty name: constructible through the model (pydantic puts
no lower bound on `name`), but rejected by the orchestrator's
`validate_pipeline`. -/
def stepNoName : Step :=
  { name := "", type := "run", command := some "make lint" }

/-- A pipeline that satisfies every precondition listed by the claim (steps
non-empty, ids non-empty) yet is rejected by `validate_pipeline`. -/
def pNoName : Pipeline :=
  { id := "p2", name := "demo2", repo_url := "u",
    steps := [stepNoName], created_at := 0, updated_at := 0 }

/-- A freshly created run, as the trigger endpoint builds it. -/
def runFresh : Run :=
  { id := "r1", pipeline_id := "p1" }

/-- The empty store. -/
def dbEmpty : InMemoryDB := {}

/-- A store holding `runFresh`, as after the trigger endpoint's
`db.create_run(run)`. -/
def dbWithRun : InMemoryDB :=
  (InMemoryDB.create_run dbEmpty runFresh).1

/-- A stored pipeline for the update claims. -/
def pBase : Pipeline :=
  { id := "p1", name := "base", repo_url := "u",
    steps := [stepLint], created_at := 0, updated_at := 0 }

/-- A store holding `pBase`. -/
def dbWithP : InMemoryDB :=
  (InMemoryDB.create_pipeline dbEmpty pBase).1

/-- An update request body. -/
def reqNew : CreatePipelineRequest :=
  { name := "renamed", repo_url := "u2", steps := [stepLint] }

/-- Attempt oracle: first attempt answers HTTP 500, any retry would answer
204. -/
def oracle500 : Nat → GitHub.HResp :=
  fun n => if n = 0 then GitHub.HResp.resp 500 "boom" else GitHub.HResp.resp 204 ""

/-- Attempt oracle: dispatch accepted with 204. -/
def oracle204 : Nat → GitHub.HResp :=
  fun _ => GitHub.HResp.resp 204 "ok"

/-- Attempt oracle: a plain 404. -/
def oracle404 : Nat → GitHub.HResp :=
  fun _ => GitHub.HResp.resp 404 "missing"

/-- Attempt oracle: one network failure, then 204. -/
def oracleFlaky : Nat → GitHub.HResp :=
  fun n => if n = 0 then GitHub.HResp.net "timeout" else GitHub.HResp.resp 204 ""

/-- Attempt oracle: the network stays down. -/
def oracleDown : Nat → GitHub.HResp :=
  fun _ => GitHub.HResp.net "timeout"

/-! Helper lemmas. -/

lemma head_of_append (s t : String) (c : Char) (h : s.data.head? = some c) :
    (s ++ t).data.head? = some c := by
  rw [String.data_append]
  rcases hs : s.data with _ | ⟨a, l⟩
  · rw [hs] at h
    exact absurd h (by simp)
  · rw [hs] at h
    simpa using h

lemma ne_of_head (a b : String) (h : a.data.head? ≠ b.data.head?) : a ≠ b :=
  fun e => h (by rw [e])

lemma isErrLine_head (l : String) (h : isErrLine l) : l.data.head? = some 'E' := by
  obtain ⟨d, rfl⟩ := h
  exact head_of_append "ERROR: " d 'E' rfl

lemma not_err_of_head (l : String) (c : Char) (hc : l.data.head? = some c)
    (hne : c ≠ 'E') : ¬ isErrLine l := by
  intro h
  have h2 := isErrLine_head l h
  rw [hc] at h2
  exact hne (by simpa using h2)

namespace PipelineExecutor

lemma startLine_head (idx : Nat) (s : Step) :
    (startLine idx s).data.head? = some '[' := by
  unfold startLine
  repeat apply head_of_append
  rfl

lemma doneLine_head (s : Step) : (doneLine s).data.head? = some 'S' := by
  unfold doneLine
  repeat apply head_of_append
  rfl

lemma failLine_head (s : Step) (e : String) : (failLine s e).data.head? = some 'S' := by
  unfold failLine
  repeat apply head_of_append
  rfl

lemma stepLogs_not_err (s : Step) (idx : Nat) :
    ∀ l ∈ stepLogs s idx, ¬ isErrLine l := by
  intro l hl
  unfold stepLogs at hl
  split_ifs at hl <;>
    simp only [List.mem_cons, List.not_mem_nil, or_false] at hl
  · rcases hl with rfl | rfl | rfl | rfl
    · exact not_err_of_head _ '[' (startLine_head idx s) (by decide)
    · exact not_err_of_head _ 'R' (head_of_append _ _ _ rfl) (by decide)
    · exact not_err_of_head _ 'C' rfl (by decide)
    · exact not_err_of_head _ 'S' (doneLine_head s) (by decide)
  · rcases hl with rfl | rfl | rfl | rfl
    · exact not_err_of_head _ '[' (startLine_head idx s) (by decide)
    · exact not_err_of_head _ 'B' (head_of_append _ _ _ (head_of_append _ _ _ (head_of_append _ _ _ rfl))) (by decide)
    · exact not_err_of_head _ 'I' rfl (by decide)
    · exact not_err_of_head _ 'S' (doneLine_head s) (by decide)
  · rcases hl with rfl | rfl | rfl | rfl
    · exact not_err_of_head _ '[' (startLine_head idx s) (by decide)
    · exact not_err_of_head _ 'A' (head_of_append _ _ _ (head_of_append _ _ _ rfl)) (by decide)
    · exact not_err_of_head _ 'D' rfl (by decide)
    · exact not_err_of_head _ 'S' (doneLine_head s) (by decide)
  · rcases hl with rfl | rfl | rfl
    · exact not_err_of_head _ '[' (startLine_head idx s) (by decide)
    · exact not_err_of_head _ 'U' rfl (by decide)
    · exact not_err_of_head _ 'S' (failLine_head s _) (by decide)

lemma runLogs_not_err : ∀ (steps : List Step) (idx : Nat),
    ∀ l ∈ runLogs steps idx, ¬ isErrLine l := by
  intro steps
  induction steps with
  | nil => intro idx l hl; exact absurd hl (List.not_mem_nil l)
  | cons s rest ih =>
    intro idx l hl
    unfold runLogs at hl
    rcases List.mem_append.mp hl with h | h
    · exact stepLogs_not_err s idx l h
    · split_ifs at h
      · exact ih (idx + 1) l h
      · exact absurd h (List.not_mem_nil l)

lemma simulate_step_run_eq (db : InMemoryDB) (r : Run) (s : Step) (idx : Nat) :
    (simulate_step db r s idx).run =
      { r with current_step := some idx, logs := r.logs ++ stepLogs s idx } := by
  unfold simulate_step stepLogs addLog
  split_ifs <;> simp

lemma simulate_step_err (db : InMemoryDB) (r : Run) (s : Step) (idx : Nat) :
    (simulate_step db r s idx).err =
      if stepTypeKnown s.type then none else some ("Unknown step type: " ++ s.type) := by
  unfold simulate_step stepTypeKnown
  split_ifs with h1 h2 h3 h4 <;> simp_all

lemma simulate_step_trace_mem (db : InMemoryDB) (r : Run) (s : Step) (idx : Nat) :
    ∀ x ∈ (simulate_step db r s idx).trace,
      x.id = r.id ∧ x.pipeline_id = r.pipeline_id ∧ x.status = r.status ∧
      x.started_at = r.started_at ∧ x.finished_at = r.finished_at ∧
      x.current_step = some idx ∧ ∃ t, x.logs = r.logs ++ t := by
  intro x hx
  unfold simulate_step addLog at hx
  split_ifs at hx <;>
    (simp only [List.mem_cons, List.not_mem_nil, or_false] at hx;
     rcases hx with rfl | rfl | rfl | rfl | rfl <;>
       refine ⟨rfl, rfl, rfl, rfl, rfl, rfl, ?_⟩ <;>
         first
           | exact ⟨[], (List.append_nil _).symm⟩
           | (simp only [List.append_assoc]; exact ⟨_, rfl⟩))

lemma simulate_step_db_time (db : InMemoryDB) (r : Run) (s : Step) (idx : Nat) :
    (simulate_step db r s idx).db.time = db.time := by
  have hlog : ∀ (d : InMemoryDB) (x : Run), (logDB d x).time = d.time := by
    intro d x
    unfold logDB InMemoryDB.update_run
    rcases d.runs x.id with _ | _ <;> rfl
  unfold simulate_step
  split_ifs <;> simp [hlog]

lemma logDB_presence (db : InMemoryDB) (x : Run) (k : String) (h : (db.runs k).isSome) :
    ((logDB db x).runs k).isSome := by
  unfold logDB InMemoryDB.update_run
  rcases hx : db.runs x.id with _ | _
  · simpa using h
  · by_cases hk : k = x.id <;> simp [hk, h]

lemma simulate_step_presence (db : InMemoryDB) (r : Run) (s : Step) (idx : Nat)
    (k : String) (h : (db.runs k).isSome) :
    ((simulate_step db r s idx).db.runs k).isSome := by
  unfold simulate_step
  split_ifs <;> (repeat apply logDB_presence) <;> exact h

lemma run_steps_fields : ∀ (steps : List Step) (idx : Nat) (db : InMemoryDB) (r : Run),
    (run_steps db r steps idx).run.id = r.id ∧
    (run_steps db r steps idx).run.pipeline_id = r.pipeline_id ∧
    (run_steps db r steps idx).run.status = r.status ∧
    (run_steps db r steps idx).run.started_at = r.started_at ∧
    (run_steps db r steps idx).run.finished_at = r.finished_at := by
  intro steps
  induction steps with
  | nil => exact fun idx db r => ⟨rfl, rfl, rfl, rfl, rfl⟩
  | cons s rest ih =>
    intro idx db r
    have hsim := simulate_step_run_eq db r s idx
    cases h : (simulate_step db r s idx).err with
    | some e =>
      simp only [run_steps, h]
      rw [hsim]
      exact ⟨rfl, rfl, rfl, rfl, rfl⟩
    | none =>
      simp only [run_steps, h]
      obtain ⟨h1, h2, h3, h4, h5⟩ :=
        ih (idx + 1) (simulate_step db r s idx).db (simulate_step db r s idx).run
      exact ⟨h1.trans (by rw [hsim]), h2.trans (by rw [hsim]), h3.trans (by rw [hsim]),
        h4.trans (by rw [hsim]), h5.trans (by rw [hsim])⟩

lemma run_steps_db_time : ∀ (steps : List Step) (idx : Nat) (db : InMemoryDB) (r : Run),
    (run_steps db r steps idx).db.time = db.time := by
  intro steps
  induction steps with
  | nil => exact fun idx db r => rfl
  | cons s rest ih =>
    intro idx db r
    cases h : (simulate_step db r s idx).err with
    | some e => simp only [run_steps, h]; exact simulate_step_db_time db r s idx
    | none =>
      simp only [run_steps, h]
      exact (ih (idx + 1) _ _).trans (simulate_step_db_time db r s idx)

lemma run_steps_presence : ∀ (steps : List Step) (idx : Nat) (db : InMemoryDB) (r : Run)
    (k : String), (db.runs k).isSome → ((run_steps db r steps idx).db.runs k).isSome := by
  intro steps
  induction steps with
  | nil => exact fun idx db r k h => h
  | cons s rest ih =>
    intro idx db r k h
    cases he : (simulate_step db r s idx).err with
    | some e => simp only [run_steps, he]; exact simulate_step_presence db r s idx k h
    | none =>
      simp only [run_steps, he]
      exact ih (idx + 1) _ _ k (simulate_step_presence db r s idx k h)

lemma run_steps_trace_mem : ∀ (steps : List Step) (idx : Nat) (db : InMemoryDB) (r : Run),
    ∀ x ∈ (run_steps db r steps idx).trace,
      x.id = r.id ∧ x.pipeline_id = r.pipeline_id ∧ x.status = r.status ∧
      x.started_at = r.started_at ∧ x.finished_at = r.finished_at ∧
      ∃ t, x.logs = r.logs ++ t := by
  intro steps
  induction steps with
  | nil => intro idx db r x hx; exact absurd hx (List.not_mem_nil x)
  | cons s rest ih =>
    intro idx db r x hx
    have hsim := simulate_step_run_eq db r s idx
    cases he : (simulate_step db r s idx).err with
    | some e =>
      simp only [run_steps, he] at hx
      obtain ⟨h1, h2, h3, h4, h5, _, h7⟩ := simulate_step_trace_mem db r s idx x hx
      exact ⟨h1, h2, h3, h4, h5, h7⟩
    | none =>
      simp only [run_steps, he] at hx
      rcases List.mem_append.mp hx with hmem | hmem
      · obtain ⟨h1, h2, h3, h4, h5, _, h7⟩ := simulate_step_trace_mem db r s idx x hmem
        exact ⟨h1, h2, h3, h4, h5, h7⟩
      · obtain ⟨h1, h2, h3, h4, h5, h6⟩ :=
          ih (idx + 1) (simulate_step db r s idx).db (simulate_step db r s idx).run x hmem
        refine ⟨h1.trans (by rw [hsim]), h2.trans (by rw [hsim]), h3.trans (by rw [hsim]),
          h4.trans (by rw [hsim]), h5.trans (by rw [hsim]), ?_⟩
        obtain ⟨t, ht⟩ := h6
        rw [hsim] at ht
        exact ⟨stepLogs s idx ++ t, by rw [ht]; simp [List.append_assoc]⟩

lemma run_steps_known : ∀ (steps : List Step) (idx : Nat) (db : InMemoryDB) (r : Run),
    (∀ s ∈ steps, stepTypeKnown s.type = true) →
    (run_steps db r steps idx).err = none ∧
    (run_steps db r steps idx).run.logs = r.logs ++ runLogs steps idx := by
  intro steps
  induction steps with
  | nil => intro idx db r _; exact ⟨rfl, by simp [runLogs, run_steps]⟩
  | cons s rest ih =>
    intro idx db r hall
    have hknown : stepTypeKnown s.type = true := hall s (List.mem_cons_self s rest)
    have he : (simulate_step db r s idx).err = none := by
      rw [simulate_step_err, hknown]; rfl
    have hsim := simulate_step_run_eq db r s idx
    simp only [run_steps, he]
    obtain ⟨ih1, ih2⟩ :=
      ih (idx + 1) (simulate_step db r s idx).db (simulate_step db r s idx).run
        (fun x hx => hall x (List.mem_cons_of_mem s hx))
    refine ⟨ih1, ?_⟩
    rw [ih2, hsim]
    simp [runLogs, hknown, List.append_assoc]

lemma run_steps_fail : ∀ (good : List Step) (bad : Step) (idx : Nat)
    (db : InMemoryDB) (r : Run),
    (∀ s ∈ good, stepTypeKnown s.type = true) → stepTypeKnown bad.type = false →
    (run_steps db r (good ++ [bad]) idx).err = some ("Unknown step type: " ++ bad.type) ∧
    (run_steps db r (good ++ [bad]) idx).run.logs = r.logs ++ runLogs (good ++ [bad]) idx := by
  intro good
  induction good with
  | nil =>
    intro bad idx db r _ hbad
    have he : (simulate_step db r bad idx).err = some ("Unknown step type: " ++ bad.type) := by
      rw [simulate_step_err, hbad]; rfl
    have hsim := simulate_step_run_eq db r bad idx
    constructor
    · simp only [List.nil_append, run_steps, he]
    · simp only [List.nil_append, run_steps, he]
      rw [hsim]
      simp [runLogs, hbad]
  | cons s rest ih =>
    intro bad idx db r hall hbad
    have hknown : stepTypeKnown s.type = true := hall s (List.mem_cons_self s rest)
    have he : (simulate_step db r s idx).err = none := by
      rw [simulate_step_err, hknown]; rfl
    have hsim := simulate_step_run_eq db r s idx
    obtain ⟨ih1, ih2⟩ :=
      ih bad (idx + 1) (simulate_step db r s idx).db (simulate_step db r s idx).run
        (fun x hx => hall x (List.mem_cons_of_mem s hx)) hbad
    constructor
    · simp only [List.cons_append, run_steps, he, List.append_eq]
      exact ih1
    · simp only [List.cons_append, run_steps, he, List.append_eq]
      rw [ih2, hsim]
      simp [runLogs, hknown, List.append_assoc]

lemma run_steps_trunc : ∀ (good : List Step) (bad : Step) (rest : List Step)
    (idx : Nat) (db : InMemoryDB) (r : Run),
    (∀ s ∈ good, stepTypeKnown s.type = true) → stepTypeKnown bad.type = false →
    run_steps db r (good ++ bad :: rest) idx = run_steps db r (good ++ [bad]) idx := by
  intro good
  induction good with
  | nil =>
    intro bad rest idx db r _ hbad
    have he : (simulate_step db r bad idx).err = some ("Unknown step type: " ++ bad.type) := by
      rw [simulate_step_err, hbad]; rfl
    simp only [List.nil_append, run_steps, he]
  | cons s tail ih =>
    intro bad rest idx db r hall hbad
    have hknown : stepTypeKnown s.type = true := hall s (List.mem_cons_self s tail)
    have he : (simulate_step db r s idx).err = none := by
      rw [simulate_step_err, hknown]; rfl
    simp only [List.cons_append, run_steps, he, List.append_eq]
    rw [ih bad rest (idx + 1) _ _ (fun x hx => hall x (List.mem_cons_of_mem s hx)) hbad]

lemma csLE_refl (a : Option Nat) : csLE a a := by
  cases a
  · trivial
  · exact Nat.le_refl _

lemma simulate_step_chainx (db : InMemoryDB) (r : Run) (s : Step) (idx : Nat)
    (h : csLE r.current_step (some idx)) :
    ∀ tail, List.Chain' progress ((simulate_step db r s idx).run :: tail) →
      List.Chain' progress (r :: ((simulate_step db r s idx).trace ++ tail)) := by
  intro tail htail
  simp only [simulate_step] at htail ⊢
  split_ifs at htail ⊢ <;>
    (simp only [List.cons_append, List.nil_append] at htail ⊢;
     refine List.chain'_cons.mpr ⟨⟨⟨[], (List.append_nil _).symm⟩, h⟩, ?_⟩;
     repeat (first
       | exact htail
       | refine List.chain'_cons.mpr ⟨⟨⟨_, rfl⟩, csLE_refl _⟩, ?_⟩))

lemma run_steps_chainx : ∀ (steps : List Step) (idx : Nat) (db : InMemoryDB) (r : Run),
    csLE r.current_step (some idx) →
    ∀ tail, List.Chain' progress ((run_steps db r steps idx).run :: tail) →
      List.Chain' progress (r :: ((run_steps db r steps idx).trace ++ tail)) := by
  intro steps
  induction steps with
  | nil =>
    intro idx db r _ tail htail
    simpa using htail
  | cons s rest ih =>
    intro idx db r h tail htail
    cases he : (simulate_step db r s idx).err with
    | some e =>
      simp only [run_steps, he] at htail ⊢
      exact simulate_step_chainx db r s idx h tail htail
    | none =>
      simp only [run_steps, he] at htail ⊢
      have hcs : (simulate_step db r s idx).run.current_step = some idx := by
        rw [simulate_step_run_eq]
      have step2 := ih (idx + 1) (simulate_step db r s idx).db (simulate_step db r s idx).run
        (by rw [hcs]; exact Nat.le_succ idx) tail htail
      have := simulate_step_chainx db r s idx h
        ((run_steps (simulate_step db r s idx).db (simulate_step db r s idx).run rest (idx + 1)).trace ++ tail)
        step2
      simpa [List.append_assoc] using this

lemma chain_ok_running (l : List RunStatus) (h : ∀ x ∈ l, x = RunStatus.running) :
    ∀ tail, List.Chain' (fun a b => okTransition a b = true) (RunStatus.running :: tail) →
      List.Chain' (fun a b => okTransition a b = true) (RunStatus.running :: (l ++ tail)) := by
  induction l with
  | nil => intro tail h2; simpa using h2
  | cons x xs ih =>
    intro tail h2
    have hx : x = RunStatus.running := h x (List.mem_cons_self x xs)
    subst hx
    refine List.chain'_cons.mpr ⟨by decide, ?_⟩
    exact ih (fun y hy => h y (List.mem_cons_of_mem _ hy)) tail h2

end PipelineExecutor

namespace PipelineExecutor

lemma run_steps_run_id (steps : List Step) (idx : Nat) (db : InMemoryDB) (r : Run) :
    (run_steps db r steps idx).run.id = r.id :=
  (run_steps_fields steps idx db r).1

lemma run_steps_run_status (steps : List Step) (idx : Nat) (db : InMemoryDB) (r : Run) :
    (run_steps db r steps idx).run.status = r.status :=
  (run_steps_fields steps idx db r).2.2.1

lemma run_steps_run_started (steps : List Step) (idx : Nat) (db : InMemoryDB) (r : Run) :
    (run_steps db r steps idx).run.started_at = r.started_at :=
  (run_steps_fields steps idx db r).2.2.2.1

lemma validate_steps_append : ∀ (l1 l2 : List Step) (i : Nat),
    validate_steps (l1 ++ l2) i = none → validate_steps l1 i = none := by
  intro l1
  induction l1 with
  | nil => intro l2 i _; rfl
  | cons s rest ih =>
    intro l2 i h
    rw [List.cons_append] at h
    unfold validate_steps at h ⊢
    split_ifs at h ⊢ with h1 h2 h3
    exact ih l2 (i + 1) h

lemma validate_pipeline_trunc (p : Pipeline) (good : List Step) (bad : Step)
    (rest : List Step) (hsteps : p.steps = good ++ bad :: rest)
    (hvp : validate_pipeline p = none) :
    validate_pipeline { p with steps := good ++ [bad] } = none := by
  simp only [validate_pipeline] at hvp ⊢
  rw [hsteps] at hvp
  have hne : good ++ bad :: rest ≠ [] := by simp
  have hne2 : good ++ [bad] ≠ ([] : List Step) := by simp
  rw [if_neg hne] at hvp
  rw [if_neg hne2]
  by_cases hid : p.id = ""
  · rw [if_pos hid] at hvp
    exact absurd hvp (by simp)
  · rw [if_neg hid] at hvp
    rw [if_neg hid]
    exact validate_steps_append (good ++ [bad]) rest 0
      (by rw [List.append_assoc]; simpa using hvp)

lemma mkStep_ok_known (name ty : String)
    (command dockerfile ecr_repo manifest : Option String) (tmo : Int) (co : Bool)
    (s : Step)
    (h : mkStep name ty command dockerfile ecr_repo manifest tmo co = Except.ok s) :
    stepTypeKnown s.type = true := by
  unfold mkStep at h
  split_ifs at h with h1
  injection h with h
  rw [← h]
  simp only [Bool.not_eq_true, Bool.not_eq_false] at h1
  simpa using h1

lemma runCmdLine_head (s : Step) :
    ("Running shell command: " ++ pyRepr s.command).data.head? = some 'R' := by
  apply head_of_append
  rfl

lemma buildLine_head (s : Step) :
    ("Building Docker image from " ++ orDefault s.dockerfile "Dockerfile" ++
      " and pushing to " ++ orDefault s.ecr_repo "ecr://example").data.head? =
      some 'B' := by
  repeat apply head_of_append
  rfl

lemma deployLine_head (s : Step) :
    ("Applying manifest " ++ orDefault s.manifest "k8s/deploy.yaml" ++
      " to cluster").data.head? = some 'A' := by
  repeat apply head_of_append
  rfl

lemma stepLogs_no_unknown (s : Step) (idx : Nat) (h : stepTypeKnown s.type = true) :
    "Unknown step type encountered" ∉ stepLogs s idx := by
  have h3 : s.type = "run" ∨ s.type = "build" ∨ s.type = "deploy" := by
    have h4 := h
    unfold stepTypeKnown at h4
    simp only [Bool.or_eq_true, decide_eq_true_eq] at h4
    tauto
  have hstart : "Unknown step type encountered" ≠ startLine idx s :=
    ne_of_head _ _ (by rw [startLine_head]; decide)
  have hdone : "Unknown step type encountered" ≠ doneLine s :=
    ne_of_head _ _ (by rw [doneLine_head]; decide)
  unfold stepLogs
  rcases h3 with ht | ht | ht
  · rw [if_pos ht]
    intro hmem
    simp only [List.mem_cons, List.not_mem_nil, or_false] at hmem
    rcases hmem with hx | hx | hx | hx
    · exact hstart hx
    · exact ne_of_head _ _ (by rw [runCmdLine_head]; decide) hx
    · exact absurd hx (by decide)
    · exact hdone hx
  · rw [if_neg (by simp [ht]), if_pos ht]
    intro hmem
    simp only [List.mem_cons, List.not_mem_nil, or_false] at hmem
    rcases hmem with hx | hx | hx | hx
    · exact hstart hx
    · exact ne_of_head _ _ (by rw [buildLine_head]; decide) hx
    · exact absurd hx (by decide)
    · exact hdone hx
  · rw [if_neg (by simp [ht]), if_neg (by simp [ht]), if_pos ht]
    intro hmem
    simp only [List.mem_cons, List.not_mem_nil, or_false] at hmem
    rcases hmem with hx | hx | hx | hx
    · exact hstart hx
    · exact ne_of_head _ _ (by rw [deployLine_head]; decide) hx
    · exact absurd hx (by decide)
    · exact hdone hx

end PipelineExecutor

lemma update_run_presence (db : InMemoryDB) (k : String) (v : Run) (j : String)
    (h : (db.runs j).isSome) :
    ((InMemoryDB.update_run db k v).1.runs j).isSome := by
  unfold InMemoryDB.update_run
  rcases hx : db.runs k with _ | _
  · simpa using h
  · by_cases hk : j = k <;> simp [hk, h]

lemma update_run_time (db : InMemoryDB) (k : String) (v : Run) :
    (InMemoryDB.update_run db k v).1.time = db.time := by
  unfold InMemoryDB.update_run
  rcases db.runs k with _ | _ <;> rfl

lemma update_run_write (db : InMemoryDB) (k : String) (v : Run)
    (h : (db.runs k).isSome) :
    (InMemoryDB.update_run db k v).1.runs k = some v := by
  unfold InMemoryDB.update_run
  rcases hk : db.runs k with _ | w
  · rw [hk] at h; simp at h
  · simp

lemma utcnow_presence (db : InMemoryDB) (k : String) (h : (db.runs k).isSome) :
    (((utcnow db).2).runs k).isSome := h

/-! The claims. -/

/-- Claim C10: store round-trip and delete semantics.  `create` returns its
argument unchanged and a `get` of the created id immediately afterwards
returns it (for both collections); `delete_pipeline` returns `true` exactly
when the id was present, after which a `get` returns `none` and a second
delete of the same id returns `false`.  (The store exposes no delete for
runs.) -/
theorem C10_store_round_trip :
    ∀ (db : InMemoryDB) (p : Pipeline) (r : Run) (pid : String),
      (InMemoryDB.create_pipeline db p).2 = p ∧
      InMemoryDB.get_pipeline (InMemoryDB.create_pipeline db p).1 p.id = some p ∧
      (InMemoryDB.create_run db r).2 = r ∧
      InMemoryDB.get_run (InMemoryDB.create_run db r).1 r.id = some r ∧
      ((InMemoryDB.delete_pipeline db pid).2 = true ↔ (db.pipelines pid).isSome = true) ∧
      InMemoryDB.get_pipeline (InMemoryDB.delete_pipeline db pid).1 pid = none ∧
      (InMemoryDB.delete_pipeline (InMemoryDB.delete_pipeline db pid).1 pid).2 = false := by
  intro db p r pid
  refine ⟨rfl, ?_, rfl, ?_, ?_, ?_, ?_⟩
  · simp [InMemoryDB.create_pipeline, InMemoryDB.get_pipeline]
  · simp [InMemoryDB.create_run, InMemoryDB.get_run]
  · unfold InMemoryDB.delete_pipeline
    rcases h : db.pipelines pid with _ | _ <;> simp [h]
  · unfold InMemoryDB.delete_pipeline InMemoryDB.get_pipeline
    rcases h : db.pipelines pid with _ | _ <;> simp [h]
  · unfold InMemoryDB.delete_pipeline
    rcases h : db.pipelines pid with _ | _ <;> simp [h]

/-- Witness for C10 at a concrete store. -/
theorem C10_witness :
    InMemoryDB.get_pipeline (InMemoryDB.create_pipeline dbEmpty pBase).1 pBase.id =
      some pBase ∧
    (InMemoryDB.delete_pipeline dbWithP "p1").2 = true :=
  ⟨(C10_store_round_trip dbEmpty pBase runFresh "p1").2.1,
   (C10_store_round_trip dbWithP pBase runFresh "p1").2.2.2.2.1.mpr (by decide)⟩

/-- Claim C7: update is not upsert: for both collections, updating a missing
id returns `none` and leaves the store untouched (no insertion), while
updating a present id replaces the stored entity and returns it (with
`updated_at` overwritten for pipelines). -/
theorem C7_update_not_upsert :
    ∀ (db : InMemoryDB) (pid rid : String) (p : Pipeline) (v : Run),
      (db.pipelines pid = none → InMemoryDB.update_pipeline db pid p = (db, none)) ∧
      (db.runs rid = none → InMemoryDB.update_run db rid v = (db, none)) ∧
      (∀ cur, db.pipelines pid = some cur →
        (InMemoryDB.update_pipeline db pid p).2 = some { p with updated_at := db.time } ∧
        (InMemoryDB.update_pipeline db pid p).1.pipelines pid =
          some { p with updated_at := db.time }) ∧
      (∀ cur, db.runs rid = some cur →
        (InMemoryDB.update_run db rid v).2 = some v ∧
        (InMemoryDB.update_run db rid v).1.runs rid = some v) := by
  intro db pid rid p v
  refine ⟨?_, ?_, ?_, ?_⟩
  · intro h; unfold InMemoryDB.update_pipeline; rw [h]
  · intro h; unfold InMemoryDB.update_run; rw [h]
  · intro cur h; unfold InMemoryDB.update_pipeline; rw [h]; simp [utcnow]
  · intro cur h; unfold InMemoryDB.update_run; rw [h]; simp

/-- Witness for C7: a miss returns `(db, none)`; a hit replaces. -/
theorem C7_witness :
    InMemoryDB.update_pipeline dbEmpty "p1" pBase = (dbEmpty, none) ∧
    (InMemoryDB.update_run dbWithRun "r1" runFresh).2 = some runFresh :=
  ⟨(C7_update_not_upsert dbEmpty "p1" "r1" pBase runFresh).1 rfl,
   ((C7_update_not_upsert dbWithRun "p1" "r1" pBase runFresh).2.2.2 runFresh
     (by decide)).1⟩

/-- Claim C6: pipeline update timestamps.  For a stored pipeline (keyed under
its own id, with `updated_at` not in the future of the store clock), a
successful PUT returns a saved pipeline whose `id` and `created_at` are
unchanged and whose `updated_at` did not decrease; the store layer always
overwrites `updated_at` with the current wall-clock time, whatever
`updated_at` the caller supplied. -/
theorem C6_update_timestamps :
    ∀ (db : InMemoryDB) (pid : String) (req : CreatePipelineRequest) (cur : Pipeline),
      db.pipelines pid = some cur → cur.id = pid → cur.updated_at ≤ db.time →
      ∃ db2 saved, Api.update_pipeline db pid req = (db2, Except.ok saved) ∧
        saved.id = cur.id ∧ saved.created_at = cur.created_at ∧
        cur.updated_at ≤ saved.updated_at ∧
        db2.pipelines pid = some saved ∧
        (∀ q : Pipeline, (InMemoryDB.update_pipeline db pid q).2 =
          some { q with updated_at := db.time }) := by
  intro db pid req cur h hid hle
  have hstore : ∀ q : Pipeline, (InMemoryDB.update_pipeline db pid q).2 =
      some { q with updated_at := db.time } := by
    intro q; unfold InMemoryDB.update_pipeline; rw [h]; simp [utcnow]
  have hsnd : (Api.update_pipeline db pid req).2 =
      Except.ok { id := pid, name := req.name, repo_url := req.repo_url,
                  branch := req.branch, steps := req.steps,
                  created_at := cur.created_at, updated_at := db.time + 1 } := by
    unfold Api.update_pipeline InMemoryDB.update_pipeline utcnow
    simp only [h]
  have hdb2 : (Api.update_pipeline db pid req).1.pipelines pid =
      some { id := pid, name := req.name, repo_url := req.repo_url,
             branch := req.branch, steps := req.steps,
             created_at := cur.created_at, updated_at := db.time + 1 } := by
    unfold Api.update_pipeline InMemoryDB.update_pipeline utcnow
    simp only [h]
    simp
  refine ⟨(Api.update_pipeline db pid req).1,
    { id := pid, name := req.name, repo_url := req.repo_url,
      branch := req.branch, steps := req.steps,
      created_at := cur.created_at, updated_at := db.time + 1 },
    by rw [← hsnd], hid.symm, rfl, Nat.le_succ_of_le hle, hdb2, hstore⟩

/-- Witness for C6 at a concrete store. -/
theorem C6_witness :
    ∃ db2 saved, Api.update_pipeline dbWithP "p1" reqNew = (db2, Except.ok saved) ∧
      saved.id = pBase.id ∧ saved.created_at = pBase.created_at ∧
      pBase.updated_at ≤ saved.updated_at ∧
      db2.pipelines "p1" = some saved ∧
      (∀ q : Pipeline, (InMemoryDB.update_pipeline dbWithP "p1" q).2 =
        some { q with updated_at := dbWithP.time }) :=
  C6_update_timestamps dbWithP "p1" reqNew pBase (by decide) (by decide) (by decide)

/-- Claim C5: step construction validation.  A step built through the
pydantic model is constructible exactly when its type is in the closed enum,
`timeout_seconds` lies in `[1, 3600]`, and the type-specific required fields
are present and non-empty (`run` needs `command`, `build` needs both
`dockerfile` and `ecr_repo`, `deploy` needs `manifest`); fields irrelevant to
the type never block construction and are stored unchanged; omitting
`timeout_seconds` and `continue_on_error` defaults them to `300` and
`false`. -/
theorem C5_step_construction :
    ∀ (name ty : String) (command dockerfile ecr_repo manifest : Option String)
      (tmo : Int) (co : Bool),
      ((∃ s, mkStep name ty command dockerfile ecr_repo manifest tmo co = Except.ok s) ↔
        (stepTypeKnown ty = true ∧ 1 ≤ tmo ∧ tmo ≤ 3600 ∧
         (ty = "run" → falsy command = false) ∧
         (ty = "build" → falsy dockerfile = false ∧ falsy ecr_repo = false) ∧
         (ty = "deploy" → falsy manifest = false))) ∧
      (∀ s, mkStep name ty command dockerfile ecr_repo manifest tmo co = Except.ok s →
        s = { name := name, type := ty, command := command, dockerfile := dockerfile,
              ecr_repo := ecr_repo, manifest := manifest, timeout_seconds := tmo,
              continue_on_error := co }) ∧
      mkStep name ty command dockerfile ecr_repo manifest =
        mkStep name ty command dockerfile ecr_repo manifest 300 false := by
  intro name ty command dockerfile ecr_repo manifest tmo co
  refine ⟨⟨?_, ?_⟩, ?_, rfl⟩
  · rintro ⟨s, hs⟩
    unfold mkStep at hs
    split_ifs at hs with h1 h2 h3 h4 h5 h6
    · refine ⟨by simpa using h1, by omega, by omega, ?_, ?_, ?_⟩
      · intro hty
        by_contra hc
        simp only [Bool.not_eq_false] at hc
        exact h4 (by simp [hty, hc])
      · intro hty
        constructor <;>
          (by_contra hc
           simp only [Bool.not_eq_false] at hc
           exact h5 (by simp [hty, hc]))
      · intro hty
        by_contra hc
        simp only [Bool.not_eq_false] at hc
        exact h6 (by simp [hty, hc])
  · rintro ⟨hk, hge, hle, hr, hb, hd⟩
    unfold mkStep
    split_ifs with h1 h2 h3 h4 h5 h6
    · exact absurd hk (by simpa using h1)
    · omega
    · omega
    · simp only [Bool.and_eq_true, decide_eq_true_eq] at h4
      exact absurd (hr h4.1) (by simp [h4.2])
    · simp only [Bool.and_eq_true, Bool.or_eq_true, decide_eq_true_eq] at h5
      rcases h5.2 with hc | hc
      · exact absurd (hb h5.1).1 (by simp [hc])
      · exact absurd (hb h5.1).2 (by simp [hc])
    · simp only [Bool.and_eq_true, decide_eq_true_eq] at h6
      exact absurd (hd h6.1) (by simp [h6.2])
    · exact ⟨_, rfl⟩
  · intro s hs
    unfold mkStep at hs
    split_ifs at hs
    injection hs with hs
    exact hs.symm

/-- Witness for C5: a fully specified run step is constructible, and the
theorem's field equation pins the result. -/
theorem C5_witness :
    (∃ s, mkStep "lint" "run" (some "make lint") none none none 300 false =
      Except.ok s) ∧
    (mkStep "lint" "run" (some "make lint") none none none 300 false =
      Except.ok stepLint →
        stepLint = { name := "lint", type := "run", command := some "make lint",
                     dockerfile := none, ecr_repo := none, manifest := none,
                     timeout_seconds := 300, continue_on_error := false }) :=
  ⟨(C5_step_construction "lint" "run" (some "make lint") none none none 300
      false).1.mpr (by decide),
   (C5_step_construction "lint" "run" (some "make lint") none none none 300
      false).2.1 stepLint⟩

/-- Claim C9: for every step constructed through the public model (whose
type is validated against the closed StepType enum), the simulator's
defensive unknown-step-type branch is unreachable: `simulate_step` raises no
unknown-step-type error and, provided the line was not already present, the
`"Unknown step type encountered"` marker never appears in the run's logs. -/
theorem C9_unknown_branch_unreachable :
    ∀ (db : InMemoryDB) (r : Run) (s : Step) (idx : Nat) (name ty : String)
      (command dockerfile ecr_repo manifest : Option String) (tmo : Int) (co : Bool),
      mkStep name ty command dockerfile ecr_repo manifest tmo co = Except.ok s →
      "Unknown step type encountered" ∉ r.logs →
      (PipelineExecutor.simulate_step db r s idx).err = none ∧
      "Unknown step type encountered" ∉
        (PipelineExecutor.simulate_step db r s idx).run.logs := by
  intro db r s idx name ty command dockerfile ecr_repo manifest tmo co hmk hlogs
  have hknown := PipelineExecutor.mkStep_ok_known name ty command dockerfile
    ecr_repo manifest tmo co s hmk
  constructor
  · rw [PipelineExecutor.simulate_step_err, hknown]
    rfl
  · rw [PipelineExecutor.simulate_step_run_eq]
    intro hmem
    rcases List.mem_append.mp hmem with hx | hx
    · exact hlogs hx
    · exact PipelineExecutor.stepLogs_no_unknown s idx hknown hx

/-- Witness for C9: a model-constructed run step at a fresh run. -/
theorem C9_witness :
    mkStep "lint" "run" (some "make lint") none none none 300 false =
      Except.ok stepLint ∧
    (PipelineExecutor.simulate_step dbWithRun runFresh stepLint 0).err = none ∧
    "Unknown step type encountered" ∉
      (PipelineExecutor.simulate_step dbWithRun runFresh stepLint 0).run.logs :=
  ⟨rfl,
   C9_unknown_branch_unreachable dbWithRun runFresh stepLint 0 "lint" "run"
     (some "make lint") none none none 300 false rfl (by simp [runFresh])⟩

/-- Claim C3: run status state machine.  Along the full sequence of
observable run states (the initial pending run followed by every mutation
snapshot of `run_pipeline`), consecutive statuses only stutter, start
(`pending -> running`) or terminate (`running -> succeeded | failed`);
since terminal statuses only stutter under `okTransition`, `succeeded` and
`failed` are sinks; and `cancelled` never appears. -/
theorem C3_status_machine :
    ∀ (db : InMemoryDB) (p : Pipeline) (r : Run), r.status = RunStatus.pending →
      List.Chain' (fun a b => okTransition a b = true)
        ((r :: (PipelineExecutor.run_pipeline db p r).trace).map Run.status) ∧
      ∀ x ∈ (r :: (PipelineExecutor.run_pipeline db p r).trace).map Run.status,
        x ≠ RunStatus.cancelled := by
  intro db p r hpend
  cases hvp : PipelineExecutor.validate_pipeline p with
  | some e =>
    unfold PipelineExecutor.run_pipeline
    simp only [hvp]
    constructor
    · simp
    · intro x hx
      simp only [List.map_cons, List.map_nil, List.mem_singleton] at hx
      rw [hx, hpend]
      decide
  | none =>
    cases hvr : PipelineExecutor.validate_run r with
    | some e =>
      unfold PipelineExecutor.run_pipeline
      simp only [hvp, hvr]
      constructor
      · simp
      · intro x hx
        simp only [List.map_cons, List.map_nil, List.mem_singleton] at hx
        rw [hx, hpend]
        decide
    | none =>
      have hmem : ∀ (dbB : InMemoryDB) (r2 : Run),
          ∀ y ∈ (PipelineExecutor.run_steps dbB r2 p.steps 0).trace,
            y.status = r2.status :=
        fun dbB r2 y hy =>
          (PipelineExecutor.run_steps_trace_mem p.steps 0 dbB r2 y hy).2.2.1
      unfold PipelineExecutor.run_pipeline
      simp only [hvp, hvr]
      split
      · rename_i hsim
        constructor
        · simp only [List.cons_append, List.nil_append, List.map_cons,
            List.map_nil, List.map_append, List.append_assoc, hpend]
          refine List.chain'_cons.mpr ⟨by decide, ?_⟩
          refine List.chain'_cons.mpr ⟨by decide, ?_⟩
          refine PipelineExecutor.chain_ok_running _ ?_ _ ?_
          · intro x hx
            rcases List.mem_map.mp hx with ⟨y, hy, rfl⟩
            exact ((hmem _ _ y hy).trans rfl)
          · simp [okTransition]
        · intro x hx
          simp only [List.cons_append, List.nil_append, List.map_cons,
            List.map_nil, List.map_append, List.append_assoc, List.mem_cons,
            List.mem_append, List.not_mem_nil, or_false, hpend] at hx
          rcases hx with rfl | rfl | rfl | hx | hx
          · decide
          · simp
          · simp
          · rcases List.mem_map.mp hx with ⟨y, hy, rfl⟩
            have hys : y.status = RunStatus.running := (hmem _ _ y hy).trans rfl
            rw [hys]
            decide
          · rcases hx with rfl | rfl <;> simp
      · rename_i e hsim
        constructor
        · simp only [List.cons_append, List.nil_append, List.map_cons,
            List.map_nil, List.map_append, List.append_assoc, hpend]
          refine List.chain'_cons.mpr ⟨by decide, ?_⟩
          refine List.chain'_cons.mpr ⟨by decide, ?_⟩
          refine PipelineExecutor.chain_ok_running _ ?_ _ ?_
          · intro x hx
            rcases List.mem_map.mp hx with ⟨y, hy, rfl⟩
            exact ((hmem _ _ y hy).trans rfl)
          · simp [addLog, PipelineExecutor.run_steps_run_status, okTransition]
        · intro x hx
          simp only [List.cons_append, List.nil_append, List.map_cons,
            List.map_nil, List.map_append, List.append_assoc, List.mem_cons,
            List.mem_append, List.not_mem_nil, or_false, hpend] at hx
          rcases hx with rfl | rfl | rfl | hx | hx
          · decide
          · simp
          · simp
          · rcases List.mem_map.mp hx with ⟨y, hy, rfl⟩
            have hys : y.status = RunStatus.running := (hmem _ _ y hy).trans rfl
            rw [hys]
            decide
          · rcases hx with rfl | rfl | rfl
            · simp [addLog, PipelineExecutor.run_steps_run_status]
            · simp
            · simp

/-- Witness for C3 at a concrete failing pipeline and fresh run. -/
theorem C3_witness :
    runFresh.status = RunStatus.pending ∧
    List.Chain' (fun a b => okTransition a b = true)
      ((runFresh :: (PipelineExecutor.run_pipeline dbWithRun pABC runFresh).trace).map
        Run.status) ∧
    ∀ x ∈ (runFresh ::
        (PipelineExecutor.run_pipeline dbWithRun pABC runFresh).trace).map Run.status,
      x ≠ RunStatus.cancelled :=
  ⟨rfl, C3_status_machine dbWithRun pABC runFresh rfl⟩

/-- Claim C4: run progress monotonicity.  Along the full sequence of
observable run states of one execution (starting from a fresh run), every
consecutive pair only appends log lines (`logs` grows, never shrinks or
reorders) and never decreases `current_step`; moreover the simulator's first
two mutations are exactly: set `run.current_step = index`, then append that
step's start line. -/
theorem C4_progress_monotone :
    ∀ (db : InMemoryDB) (p : Pipeline) (r : Run), r.current_step = none →
      List.Chain' progress (r :: (PipelineExecutor.run_pipeline db p r).trace) ∧
      ∀ (db2 : InMemoryDB) (r2 : Run) (s : Step) (idx : Nat),
        (PipelineExecutor.simulate_step db2 r2 s idx).trace.take 2 =
          [{ r2 with current_step := some idx },
           addLog { r2 with current_step := some idx }
             (PipelineExecutor.startLine idx s)] := by
  intro db p r hcs
  constructor
  · cases hvp : PipelineExecutor.validate_pipeline p with
    | some e =>
      unfold PipelineExecutor.run_pipeline
      simp only [hvp]
      simp
    | none =>
      cases hvr : PipelineExecutor.validate_run r with
      | some e =>
        unfold PipelineExecutor.run_pipeline
        simp only [hvp, hvr]
        simp
      | none =>
        unfold PipelineExecutor.run_pipeline
        simp only [hvp, hvr]
        split
        · rename_i hsim
          simp only [List.cons_append, List.nil_append, List.append_assoc]
          refine List.chain'_cons.mpr
            ⟨⟨⟨[], (List.append_nil _).symm⟩, PipelineExecutor.csLE_refl _⟩, ?_⟩
          refine List.chain'_cons.mpr
            ⟨⟨⟨[], (List.append_nil _).symm⟩, PipelineExecutor.csLE_refl _⟩, ?_⟩
          refine PipelineExecutor.run_steps_chainx p.steps 0 _ _ ?_ _ ?_
          · show csLE r.current_step (some 0)
            rw [hcs]
            trivial
          · refine List.chain'_cons.mpr
              ⟨⟨⟨[], (List.append_nil _).symm⟩, PipelineExecutor.csLE_refl _⟩, ?_⟩
            refine List.chain'_cons.mpr
              ⟨⟨⟨[], (List.append_nil _).symm⟩, PipelineExecutor.csLE_refl _⟩, ?_⟩
            exact List.chain'_singleton _
        · rename_i e hsim
          simp only [List.cons_append, List.nil_append, List.append_assoc]
          refine List.chain'_cons.mpr
            ⟨⟨⟨[], (List.append_nil _).symm⟩, PipelineExecutor.csLE_refl _⟩, ?_⟩
          refine List.chain'_cons.mpr
            ⟨⟨⟨[], (List.append_nil _).symm⟩, PipelineExecutor.csLE_refl _⟩, ?_⟩
          refine PipelineExecutor.run_steps_chainx p.steps 0 _ _ ?_ _ ?_
          · show csLE r.current_step (some 0)
            rw [hcs]
            trivial
          · refine List.chain'_cons.mpr
              ⟨⟨⟨_, rfl⟩, PipelineExecutor.csLE_refl _⟩, ?_⟩
            refine List.chain'_cons.mpr
              ⟨⟨⟨[], (List.append_nil _).symm⟩, PipelineExecutor.csLE_refl _⟩, ?_⟩
            refine List.chain'_cons.mpr
              ⟨⟨⟨[], (List.append_nil _).symm⟩, PipelineExecutor.csLE_refl _⟩, ?_⟩
            exact List.chain'_singleton _
  · intro db2 r2 s idx
    unfold PipelineExecutor.simulate_step
    split_ifs <;> rfl

/-- Witness for C4 at a concrete pipeline and fresh run. -/
theorem C4_witness :
    runFresh.current_step = none ∧
    List.Chain' progress
      (runFresh :: (PipelineExecutor.run_pipeline dbWithRun pGood runFresh).trace) ∧
    (PipelineExecutor.simulate_step dbWithRun runFresh stepLint 0).trace.take 2 =
      [{ runFresh with current_step := some 0 },
       addLog { runFresh with current_step := some 0 }
         (PipelineExecutor.startLine 0 stepLint)] :=
  ⟨rfl, (C4_progress_monotone dbWithRun pGood runFresh rfl).1,
   (C4_progress_monotone dbWithRun pGood runFresh rfl).2 dbWithRun runFresh
     stepLint 0⟩

/-- Claim C1: failure short-circuit.  If the steps are a known-typed prefix,
then a failing step, then anything, the whole execution equals the execution
with the trailing steps dropped (no subsequent step runs, so no later step
contributes any log line — in particular C's start line never appears when B
of [A, B, C] fails); the run ends `failed`; and the final log is everything
logged so far followed by exactly one trailing line of the form
`"ERROR: <failure detail>"` (no earlier line has that form). -/
theorem C1_failure_short_circuit :
    ∀ (db : InMemoryDB) (p : Pipeline) (r : Run) (good : List Step) (bad : Step)
      (rest : List Step),
      p.steps = good ++ bad :: rest →
      (∀ s ∈ good, stepTypeKnown s.type = true) →
      stepTypeKnown bad.type = false →
      PipelineExecutor.validate_pipeline p = none →
      PipelineExecutor.validate_run r = none →
      (∀ l ∈ r.logs, ¬ isErrLine l) →
      PipelineExecutor.run_pipeline db p r =
        PipelineExecutor.run_pipeline db { p with steps := good ++ [bad] } r ∧
      (PipelineExecutor.run_pipeline db p r).run.status = RunStatus.failed ∧
      ∃ pre, (PipelineExecutor.run_pipeline db p r).run.logs =
          pre ++ ["ERROR: " ++ ("Unknown step type: " ++ bad.type)] ∧
        ∀ l ∈ pre, ¬ isErrLine l := by
  intro db p r good bad rest hsteps hg hb hvp hvr hlogs
  have hvp2 : PipelineExecutor.validate_pipeline { p with steps := good ++ [bad] } =
      none := PipelineExecutor.validate_pipeline_trunc p good bad rest hsteps hvp
  have heq : PipelineExecutor.run_pipeline db p r =
      PipelineExecutor.run_pipeline db { p with steps := good ++ [bad] } r := by
    unfold PipelineExecutor.run_pipeline
    simp only [hvp, hvr, hvp2]
    rw [hsteps]
    rw [PipelineExecutor.run_steps_trunc good bad rest 0 _ _ hg hb]
  refine ⟨heq, ?_, ?_⟩
  · rw [heq]
    unfold PipelineExecutor.run_pipeline
    simp only [hvp2, hvr]
    split
    · rename_i hsim
      rw [(PipelineExecutor.run_steps_fail good bad 0 _ _ hg hb).1] at hsim
      exact absurd hsim (by simp)
    · rename_i e hsim
      rfl
  · rw [heq]
    unfold PipelineExecutor.run_pipeline
    simp only [hvp2, hvr]
    split
    · rename_i hsim
      rw [(PipelineExecutor.run_steps_fail good bad 0 _ _ hg hb).1] at hsim
      exact absurd hsim (by simp)
    · rename_i e hsim
      rw [(PipelineExecutor.run_steps_fail good bad 0 _ _ hg hb).1] at hsim
      injection hsim with he
      refine ⟨r.logs ++ PipelineExecutor.runLogs (good ++ [bad]) 0, ?_, ?_⟩
      · show (addLog (PipelineExecutor.run_steps _ _ (good ++ [bad]) 0).run
          ("ERROR: " ++ e)).logs = _
        simp only [addLog]
        rw [(PipelineExecutor.run_steps_fail good bad 0 _ _ hg hb).2]
        rw [← he]
      · intro l hl
        rcases List.mem_append.mp hl with hx | hx
        · exact hlogs l hx
        · exact PipelineExecutor.runLogs_not_err (good ++ [bad]) 0 l hx

/-- Witness for C1: the concrete pipeline [A, B, C] whose middle step B has
a type outside the enum; additionally, C's start log line decidably never
appears in the final log. -/
theorem C1_witness :
    pABC.steps = [stepLint] ++ stepBad :: [stepC] ∧
    PipelineExecutor.run_pipeline dbWithRun pABC runFresh =
      PipelineExecutor.run_pipeline dbWithRun
        { pABC with steps := [stepLint] ++ [stepBad] } runFresh ∧
    (PipelineExecutor.run_pipeline dbWithRun pABC runFresh).run.status =
      RunStatus.failed ∧
    PipelineExecutor.startLine 2 stepC ∉
      (PipelineExecutor.run_pipeline dbWithRun pABC runFresh).run.logs :=
  ⟨rfl,
   (C1_failure_short_circuit dbWithRun pABC runFresh [stepLint] stepBad [stepC]
      rfl (by decide) (by decide) (by decide) (by decide) (by simp [runFresh])).1,
   (C1_failure_short_circuit dbWithRun pABC runFresh [stepLint] stepBad [stepC]
      rfl (by decide) (by decide) (by decide) (by decide) (by simp [runFresh])).2.1,
   by decide⟩

/-- Claim C2, counterexample: the pipeline `pNoName` and run `runFresh`
satisfy every precondition the claim lists (non-empty step list, non-empty
pipeline id, non-empty run id and pipeline_id), yet `run_pipeline` raises a
validation error (its per-step validation also requires a non-empty step
name), the run is left untouched and no `finished_at` is stamped — so "if
the preconditions pass then finished_at is stamped and the run persisted"
fails for the claim's precondition list. -/
theorem C2_counterexample :
    pNoName.steps ≠ [] ∧ pNoName.id ≠ "" ∧
    runFresh.id ≠ "" ∧ runFresh.pipeline_id ≠ "" ∧
    (PipelineExecutor.run_pipeline dbEmpty pNoName runFresh).err.isSome = true ∧
    (PipelineExecutor.run_pipeline dbEmpty pNoName runFresh).run = runFresh ∧
    (PipelineExecutor.run_pipeline dbEmpty pNoName runFresh).run.finished_at =
      none := by
  decide

/-- Claim C2 (amended): the preconditions actually checked before any state
mutation are the orchestrator's full validation — non-empty step list,
non-empty pipeline id, per-step checks (non-empty step name and, for
run-type steps, a non-empty command), non-empty run id and run pipeline_id.
On any violation the error propagates and run and store are returned
untouched (still pending, no timestamps, no store write); when validation
passes, `started_at` and `finished_at` are stamped with
`finished_at >= started_at`, and (provided the run was created in the store)
the final run value is persisted under its id as the last action. -/
theorem C2_amended_preconditions :
    ∀ (db : InMemoryDB) (p : Pipeline) (r : Run),
      (∀ e, PipelineExecutor.validate_pipeline p = some e →
        PipelineExecutor.run_pipeline db p r = ⟨r, db, [], some e⟩) ∧
      (∀ e, PipelineExecutor.validate_pipeline p = none →
        PipelineExecutor.validate_run r = some e →
        PipelineExecutor.run_pipeline db p r = ⟨r, db, [], some e⟩) ∧
      (PipelineExecutor.validate_pipeline p = none →
        PipelineExecutor.validate_run r = none →
        (PipelineExecutor.run_pipeline db p r).err = none ∧
        ∃ t0 t1, (PipelineExecutor.run_pipeline db p r).run.started_at = some t0 ∧
          (PipelineExecutor.run_pipeline db p r).run.finished_at = some t1 ∧
          t0 ≤ t1 ∧
          ((db.runs r.id).isSome = true →
            (PipelineExecutor.run_pipeline db p r).db.runs r.id =
              some (PipelineExecutor.run_pipeline db p r).run)) := by
  intro db p r
  refine ⟨?_, ?_, ?_⟩
  · intro e h
    simp only [PipelineExecutor.run_pipeline, h]
  · intro e hp h
    simp only [PipelineExecutor.run_pipeline, hp, h]
  · intro hvp hvr
    unfold PipelineExecutor.run_pipeline
    simp only [hvp, hvr]
    split
    · rename_i hsim
      refine ⟨rfl, db.time, db.time + 1, ?_, ?_, Nat.le_succ _, ?_⟩
      · simp only [PipelineExecutor.run_steps_run_started]
        rfl
      · simp only [PipelineExecutor.run_steps_db_time, update_run_time, utcnow]
      · intro hpres
        simp only [PipelineExecutor.run_steps_run_id]
        apply update_run_write
        exact PipelineExecutor.run_steps_presence p.steps 0 _ _ r.id
          (update_run_presence _ _ _ _ hpres)
    · rename_i e hsim
      refine ⟨rfl, db.time, db.time + 1, ?_, ?_, Nat.le_succ _, ?_⟩
      · simp only [addLog, PipelineExecutor.run_steps_run_started]
        rfl
      · simp only [PipelineExecutor.run_steps_db_time, update_run_time, utcnow]
      · intro hpres
        simp only [addLog, PipelineExecutor.run_steps_run_id]
        apply update_run_write
        exact PipelineExecutor.run_steps_presence p.steps 0 _ _ r.id
          (update_run_presence _ _ _ _ hpres)

/-- Witness for C2 (amended): a fully valid pipeline and run (with the run
already created in the store), and a pipeline rejected by validation. -/
theorem C2_witness :
    (PipelineExecutor.run_pipeline dbEmpty pNoName runFresh =
      ⟨runFresh, dbEmpty, [], some "Step 0 must have a name"⟩) ∧
    ((PipelineExecutor.run_pipeline dbWithRun pGood runFresh).err = none ∧
      ∃ t0 t1,
        (PipelineExecutor.run_pipeline dbWithRun pGood runFresh).run.started_at =
          some t0 ∧
        (PipelineExecutor.run_pipeline dbWithRun pGood runFresh).run.finished_at =
          some t1 ∧
        t0 ≤ t1 ∧
        ((dbWithRun.runs runFresh.id).isSome = true →
          (PipelineExecutor.run_pipeline dbWithRun pGood runFresh).db.runs
              runFresh.id =
            some (PipelineExecutor.run_pipeline dbWithRun pGood runFresh).run)) :=
  ⟨(C2_amended_preconditions dbEmpty pNoName runFresh).1 "Step 0 must have a name"
     (by decide),
   (C2_amended_preconditions dbWithRun pGood runFresh).2.2 (by decide) (by decide)⟩

/-- Claim C8, counterexample: the claim asserts retry on 5xx server
responses, but an attempt sequence answering 500 and then 204 ends in the
500 error after a single attempt — the retry a 5xx-retrying client would
perform (and which would return `ok (204, "")`) never happens, because the
tenacity predicate only retries `requests.RequestException` and
`GitHubRateLimitError`. -/
theorem C8_counterexample :
    GitHub.classify (oracle500 0) =
      Except.error (GitHub.GHErr.api "GitHub server error: 500" (some 500)) ∧
    GitHub.classify (oracle500 1) = Except.ok (204, "") ∧
    GitHub.make_request oracle500 =
      Except.error (GitHub.GHErr.api "GitHub server error: 500" (some 500)) ∧
    GitHub.make_request oracle500 ≠ Except.ok (204, "") := by
  refine ⟨rfl, rfl, rfl, fun hcontra => ?_⟩
  have h3 : GitHub.make_request oracle500 =
      Except.error (GitHub.GHErr.api "GitHub server error: 500" (some 500)) := rfl
  rw [h3] at hcontra
  exact Except.noConfusion hcontra

/-- Claim C8 (amended): the dispatch call returns an HTTP-style status code
(204 signals accepted, other outcomes come back as status codes, never as a
raised exception), and every request is attempted at most 3 times, retrying
only on transient network errors and rate-limited responses; any other
classified response — including 5xx server errors — fails immediately
without retry. -/
theorem C8_amended_retry_contract :
    ∀ (o : Nat → GitHub.HResp),
      (∀ v, GitHub.classify (o 0) = Except.ok v →
        GitHub.make_request o = Except.ok v) ∧
      (∀ e, GitHub.classify (o 0) = Except.error e → GitHub.retryable e = false →
        GitHub.make_request o = Except.error e) ∧
      (∀ e v, GitHub.classify (o 0) = Except.error e → GitHub.retryable e = true →
        GitHub.classify (o 1) = Except.ok v → GitHub.make_request o = Except.ok v) ∧
      (∀ e0 e1 e2, GitHub.classify (o 0) = Except.error e0 →
        GitHub.retryable e0 = true →
        GitHub.classify (o 1) = Except.error e1 → GitHub.retryable e1 = true →
        GitHub.classify (o 2) = Except.error e2 → GitHub.retryable e2 = true →
        GitHub.make_request o =
          Except.error (GitHub.GHErr.api "Unexpected error: RetryError" none)) ∧
      (∀ t, o 0 = GitHub.HResp.resp 204 t →
        GitHub.trigger_github_workflow o = 204) ∧
      (GitHub.classify (o 0) =
          Except.error (GitHub.GHErr.notFound "Resource not found" 404) →
        GitHub.trigger_github_workflow o = 404) := by
  intro o
  refine ⟨?_, ?_, ?_, ?_, ?_, ?_⟩
  · intro v h
    simp [GitHub.make_request, GitHub.attemptLoop, h]
  · intro e h hr
    simp [GitHub.make_request, GitHub.attemptLoop, h, hr]
  · intro e v h hr h1
    simp [GitHub.make_request, GitHub.attemptLoop, h, hr, h1]
  · intro e0 e1 e2 h0 hr0 h1 hr1 h2 hr2
    simp [GitHub.make_request, GitHub.attemptLoop, h0, hr0, h1, hr1, h2, hr2]
  · intro t h
    have hc : GitHub.classify (o 0) = Except.ok (204, t) := by
      rw [h]; simp [GitHub.classify, GitHub.mentionsRateLimit]
    simp [GitHub.trigger_github_workflow, GitHub.make_request, GitHub.attemptLoop, hc]
  · intro h
    simp [GitHub.trigger_github_workflow, GitHub.make_request, GitHub.attemptLoop, h,
      GitHub.retryable, GitHub.statusOf]

/-- Witness for C8 at concrete attempt oracles: a 204 dispatch is accepted;
a 404 comes back as the status code 404 without retry; one network failure
is retried and the second attempt succeeds; three network failures exhaust
the 3-attempt budget. -/
theorem C8_witness :
    GitHub.trigger_github_workflow oracle204 = 204 ∧
    GitHub.make_request oracle404 =
      Except.error (GitHub.GHErr.notFound "Resource not found" 404) ∧
    GitHub.trigger_github_workflow oracle404 = 404 ∧
    GitHub.make_request oracleFlaky = Except.ok (204, "") ∧
    GitHub.make_request oracleDown =
      Except.error (GitHub.GHErr.api "Unexpected error: RetryError" none) :=
  ⟨(C8_amended_retry_contract oracle204).2.2.2.2.1 "ok" rfl,
   (C8_amended_retry_contract oracle404).2.1 _ rfl rfl,
   (C8_amended_retry_contract oracle404).2.2.2.2.2 rfl,
   (C8_amended_retry_contract oracleFlaky).2.2.1 (GitHub.GHErr.network "timeout")
     (204, "") rfl rfl rfl,
   (C8_amended_retry_contract oracleDown).2.2.2.1 (GitHub.GHErr.network "timeout")
     (GitHub.GHErr.network "timeout") (GitHub.GHErr.network "timeout")
     rfl rfl rfl rfl rfl rfl⟩

end DeliveryBot
